import Mathlib

/-!
Shallow embedding of the STRInvoicer core processing engine
(src/services/processor.ts, src/components/StepReview.tsx, src/types.ts).

Modelling conventions:
* JavaScript numbers are modelled by `JsNum`: an exact rational for finite
  values plus the special values NaN, +Infinity, -Infinity.  Comparison,
  addition and absolute value follow IEEE semantics on the special values
  (every comparison with NaN is false, Infinity + (-Infinity) = NaN, ...);
  in-range arithmetic is exact rational arithmetic (round-to-nearest of an
  in-range value is not modelled; no verified statement depends on it),
  while the IEEE overflow of `parseFloat` to ±Infinity is modelled exactly
  (see `dblOverflow`).
* Dates are modelled as day numbers (days since the Unix epoch).  Every date
  the engine manipulates is a midnight-UTC date (Excel serials and ISO
  `YYYY-MM-DD` strings), so day granularity is exact.  `new Date(string)` in
  the source delegates to the host date parser; the model covers its
  deterministic ISO `YYYY-MM-DD` fragment (the only format produced by the
  pipeline itself) and returns `none` on everything else.
* Spreadsheet cells are modelled by `Value` (string, number or absent).
* `genId` in the source calls `uuidv4()`, a fresh random identifier per call.
  The model threads an explicit identifier stream `gen : Nat → String`; the
  k-th `genId()` call of a run returns `gen k`.
-/

/- Batteries marks the `Rat` arithmetic operations `@[irreducible]`, which
stops `decide` from evaluating concrete pipeline runs; restore the default
reducibility so concrete counterexamples and witnesses can be checked by
evaluation. -/
set_option allowUnsafeReducibility true
attribute [semireducible] Rat.add Rat.mul Rat.sub Rat.inv Rat.ofScientific

namespace STRInvoicer

/-- A JavaScript number: an exact rational, or one of the IEEE special
values NaN / +Infinity / -Infinity. -/
inductive JsNum where
  | finite (q : ℚ)
  | nan
  | inf
  | ninf
deriving DecidableEq, Repr

/-- JavaScript `<` on numbers: any comparison involving NaN is false. -/
def JsNum.lt : JsNum → JsNum → Bool
  | .finite a, .finite b => decide (a < b)
  | .finite _, .inf => true
  | .ninf, .finite _ => true
  | .ninf, .inf => true
  | _, _ => false

/-- JavaScript `Math.abs`. -/
def JsNum.abs : JsNum → JsNum
  | .finite q => .finite |q|
  | .nan => .nan
  | .inf => .inf
  | .ninf => .inf

/-- JavaScript unary minus. -/
def JsNum.neg : JsNum → JsNum
  | .finite q => .finite (-q)
  | .nan => .nan
  | .inf => .ninf
  | .ninf => .inf

/-- JavaScript `+` on numbers (NaN propagates; Infinity + -Infinity = NaN). -/
def JsNum.add : JsNum → JsNum → JsNum
  | .finite a, .finite b => .finite (a + b)
  | .nan, _ => .nan
  | _, .nan => .nan
  | .inf, .ninf => .nan
  | .ninf, .inf => .nan
  | .inf, _ => .inf
  | _, .inf => .inf
  | .ninf, _ => .ninf
  | _, .ninf => .ninf

/-- JavaScript `-` on numbers. -/
def JsNum.sub (a b : JsNum) : JsNum := JsNum.add a (JsNum.neg b)

/-- Whether a JavaScript number is finite (not NaN and not infinite). -/
def JsNum.isFin : JsNum → Bool
  | .finite _ => true
  | _ => false

/-- Whether a JavaScript number is NaN. -/
def JsNum.isNaN : JsNum → Bool
  | .nan => true
  | _ => false

/-- A raw spreadsheet cell: a string, a number, or absent (`undefined`).
`sheet_to_json` with `defval: ''` yields strings or numbers; a header that is
not present in the row reads as `undefined`, modelled by `absent`. -/
inductive Value where
  | str (s : String)
  | num (n : JsNum)
  | absent
deriving DecidableEq, Repr

/-- A raw spreadsheet row: header → cell value (insertion-ordered object). -/
abbrev RawRow := List (String × Value)

/-- `row[h]`: the cell under header `h`, `absent` when the key is missing. -/
def getCell (row : RawRow) (h : String) : Value :=
  match row.lookup h with
  | some v => v
  | none => Value.absent

/-- Does `pre` lead the list `l` (character-by-character equality)? -/
def charsLead : List Char → List Char → Bool
  | [], _ => true
  | _ :: _, [] => false
  | a :: as, b :: bs => a == b && charsLead as bs

/-- Does `hay` contain `needle` as a contiguous run?  Mirrors JavaScript
`String.prototype.includes`. -/
def charsContains (hay needle : List Char) : Bool :=
  match hay with
  | [] => needle.isEmpty
  | _ :: t => charsLead needle hay || charsContains t needle

/-- JavaScript `hay.includes(needle)`. -/
def strIncludes (hay needle : String) : Bool :=
  charsContains hay.toList needle.toList

/-- The common JavaScript whitespace characters (ASCII fragment of the
`String.prototype.trim` character class). -/
def isJsSpace (c : Char) : Bool :=
  c == ' ' || c == '\t' || c == '\n' || c == '\r' || c == '\x0b' || c == '\x0c'

/-- JavaScript `s.trim()` (ASCII whitespace fragment). -/
def jsTrim (s : String) : String :=
  String.mk ((((s.toList.dropWhile isJsSpace).reverse).dropWhile isJsSpace).reverse)

/-- ASCII lowercasing of one character (the fragment of
`String.prototype.toLowerCase` every string in this pipeline exercises). -/
def charToLower (c : Char) : Char :=
  if 65 ≤ c.toNat ∧ c.toNat ≤ 90 then Char.ofNat (c.toNat + 32) else c

/-- JavaScript `s.toLowerCase()` (ASCII fragment). -/
def jsToLower (s : String) : String :=
  String.mk (s.toList.map charToLower)

/-- JavaScript `s.startsWith(pre)` for a one-character pattern. -/
def strHeadIs (s : String) (c : Char) : Bool :=
  s.toList.head? == some c

/-- JavaScript `s.endsWith(suf)` for a one-character pattern. -/
def strLastIs (s : String) (c : Char) : Bool :=
  s.toList.getLast? == some c

/-- The numeric value of a digit string (most significant digit first). -/
def digitsToNat (ds : List Char) : Nat :=
  ds.foldl (fun acc c => acc * 10 + (c.toNat - 48)) 0

/-- The IEEE-754 binary64 overflow threshold 2^1024 − 2^970: a real number
of this magnitude or more rounds to Infinity under round-to-nearest-even,
which is what `parseFloat` does to long digit strings. -/
def dblOverflow : ℚ := ((2 ^ 1024 - 2 ^ 970 : Nat) : ℚ)

/-- The exact decimal value denoted by a string over the alphabet `0-9 . -`
(optional leading minus, integer digits, optional fraction after a dot,
parsing stopping at the first unexpected character), or `none` when no
digit is consumed — the grammar `parseFloat` accepts on such strings. -/
def parseFloatExact (s : String) : Option ℚ :=
  let cs := s.toList
  let neg := cs.head? == some '-'
  let cs1 := if neg then cs.tail else cs
  let intPart := cs1.takeWhile Char.isDigit
  let cs2 := cs1.drop intPart.length
  let fracPart :=
    match cs2 with
    | '.' :: rest => rest.takeWhile Char.isDigit
    | _ => []
  if intPart.isEmpty && fracPart.isEmpty then none
  else
    let mag : ℚ := (digitsToNat intPart : ℚ) +
      (digitsToNat fracPart : ℚ) / ((10 : ℚ) ^ fracPart.length)
    some (if neg then -mag else mag)

/-- `parseFloat` restricted to strings over the alphabet `0-9 . -`, which is
what `parseNumber` feeds it after stripping every other character.  Returns
`none` where `parseFloat` returns NaN.  In-range results are kept as exact
rationals (round-to-nearest of the in-range value is not modelled; no
verified statement depends on it), but IEEE overflow is: a magnitude at or
above `dblOverflow` saturates to ±Infinity exactly as `parseFloat` does. -/
def parseFloatClean (s : String) : Option JsNum :=
  (parseFloatExact s).map (fun q =>
    if dblOverflow ≤ |q| then (if q < 0 then JsNum.ninf else JsNum.inf)
    else JsNum.finite q)

/-- Strip every character except digits, `.` and `-`
(the `str.replace(/[^0-9.-]/g, '')` step of `parseNumber`). -/
def stripNonNumeric (s : String) : String :=
  String.mk (s.toList.filter (fun c => c.isDigit || c == '.' || c == '-'))

/-- `parseNumber` from src/services/processor.ts: a number is returned
as-is; falsy values give 0; a string is trimmed, checked for the accounting
form `(...)`, stripped of non-numeric characters and parsed, with an
unparseable remainder giving 0 and the accounting form forcing `-|num|`. -/
def parseNumber (v : Value) : JsNum :=
  match v with
  | .num n => n
  | .absent => .finite 0
  | .str s =>
    if s == "" then .finite 0
    else
      let t := jsTrim s
      let isNegative := strHeadIs t '(' && strLastIs t ')'
      match parseFloatClean (stripNonNumeric t) with
      | none => .finite 0
      | some n => if isNegative then JsNum.neg (JsNum.abs n) else n

/-- JavaScript `Math.round`: round half toward positive infinity. -/
def jsRound (q : ℚ) : Int := Int.floor (q + 1 / 2)

/-- Is `y` a leap year (proleptic Gregorian)? -/
def isLeapYear (y : Int) : Bool :=
  (y % 4 == 0 && y % 100 != 0) || y % 400 == 0

/-- Number of days in month `m` of year `y`. -/
def daysInMonth (y m : Int) : Int :=
  if m == 2 then (if isLeapYear y then 29 else 28)
  else if m == 4 || m == 6 || m == 9 || m == 11 then 30
  else 31

/-- Days since 1970-01-01 of the civil date `y-m-d`
(Howard Hinnant's days-from-civil algorithm). -/
def daysFromCivil (y m d : Int) : Int :=
  let yy := if m ≤ 2 then y - 1 else y
  let era := Int.fdiv yy 400
  let yoe := yy - era * 400
  let mm := if m > 2 then m - 3 else m + 9
  let doy := Int.fdiv (153 * mm + 2) 5 + d - 1
  let doe := yoe * 365 + Int.fdiv yoe 4 - Int.fdiv yoe 100 + doy
  era * 146097 + doe - 719468

/-- Parse a strict ISO `YYYY-MM-DD` string to a day number.  This is the
deterministic fragment of JavaScript `new Date(string)` that the pipeline
itself produces and consumes; other host-defined formats are out of the
modelled fragment and give `none`. -/
def parseIsoDate (s : String) : Option Int :=
  match s.toList with
  | [y1, y2, y3, y4, c1, m1, m2, c2, d1, d2] =>
    if c1 == '-' && c2 == '-' && [y1, y2, y3, y4, m1, m2, d1, d2].all Char.isDigit then
      let y : Int := (digitsToNat [y1, y2, y3, y4] : Int)
      let m : Int := (digitsToNat [m1, m2] : Int)
      let d : Int := (digitsToNat [d1, d2] : Int)
      if 1 ≤ m ∧ m ≤ 12 ∧ 1 ≤ d ∧ d ≤ daysInMonth y m then some (daysFromCivil y m d)
      else none
    else none
  | _ => none

/-- Milliseconds per day. -/
def msPerDay : Int := 86400000

/-- `parseDateLoose` from src/services/processor.ts, at day granularity.
A falsy value gives `none`; a finite number is an Excel serial converted by
`round((val - 25569) * 86400 * 1000)` milliseconds and truncated to its UTC
day (invalid beyond the JS date range of 8.64e15 ms); a string is trimmed
and parsed (ISO fragment of the host parser, see `parseIsoDate`). -/
def parseDateLoose (v : Value) : Option Int :=
  match v with
  | .absent => none
  | .num (.finite q) =>
    if q = 0 then none
    else
      let ms := jsRound ((q - 25569) * 86400000)
      if ms.natAbs ≤ 8640000000000000 then some (Int.fdiv ms msPerDay) else none
  | .num _ => none
  | .str s =>
    if s == "" then none else parseIsoDate (jsTrim s)

/-- Decimal rendering of a rational, used by `cellToStr` for integral
values (matching JavaScript number-to-string); non-integral values use the
`Rat` printer, a stand-in for JS float formatting that no verified property
exercises. -/
def ratToJsString (q : ℚ) : String :=
  if q.den = 1 then toString q.num else toString q

/-- JavaScript `String(v || '')`: falsy values (empty string, 0, NaN,
`undefined`) give `''`; everything else is coerced to its string form. -/
def cellToStr (v : Value) : String :=
  match v with
  | .str s => s
  | .absent => ""
  | .num (.finite q) => if q = 0 then "" else ratToJsString q
  | .num .nan => ""
  | .num .inf => "Infinity"
  | .num .ninf => "-Infinity"

/-- The closed expense-category enum from src/types.ts.  The source stores
these as string literals; the classification-table loader uppercases and the
engine casts them, so the model assumes validated enum members (§3 of the
spec makes validation the loader's responsibility). -/
inductive ExpenseCategory where
  | OWNER_ONLY
  | MANAGER_ONLY
  | REIMBURSABLE
  | SHARED
  | EXCLUDE
  | REVIEW_ALWAYS
deriving DecidableEq, Repr

/-- OTA column mapping (canonical field → raw header, `""` = unmapped). -/
structure MappingOta where
  reservation_id : String
  check_in_date : String
  check_out_date : String
  net_payout : String
  payout_date : String
  guest_name : String
  gross_amount : String
  ota_fees : String
deriving DecidableEq, Repr

/-- GL column mapping (canonical field → raw header, `""` = unmapped). -/
structure MappingGl where
  date : String
  account_name : String
  description : String
  contact : String
  debit_amount : String
  credit_amount : String
  source_type : String
deriving DecidableEq, Repr

/-- `MappingState` from src/types.ts. -/
structure MappingState where
  ota : MappingOta
  gl : MappingGl
deriving DecidableEq, Repr

/-- `ConfigState` from src/types.ts. -/
structure ConfigState where
  periodStart : String
  periodEnd : String
  managerName : String
  managerContact : String
  managerBank : String
  ownerName : String
  mgmtFeePercent : JsNum
  feeBaseMode : String
deriving DecidableEq, Repr

/-- `FilesState` from src/types.ts.  The classification map is an
insertion-ordered object, modelled as an association list. -/
structure FilesState where
  otaRaw : List RawRow
  glRaw : List RawRow
  classificationMap : List (String × ExpenseCategory)
deriving DecidableEq, Repr

/-- `CanonicalOtaRow` from src/types.ts.  Date fields hold the parsed day
number (`none` models the `''` / `undefined` the source stores for an
unparseable date). -/
structure CanonicalOtaRow where
  id : String
  reservation_id : String
  check_in_date : Option Int
  check_out_date : Option Int
  guest_name : String
  gross_amount : JsNum
  ota_fees : JsNum
  net_payout : JsNum
  payout_date : Option Int
  originalData : RawRow
deriving DecidableEq, Repr

/-- `CanonicalGlRow` from src/types.ts. -/
structure CanonicalGlRow where
  id : String
  date : Option Int
  account_name : String
  source_type : String
  description : String
  contact : String
  debit_amount : JsNum
  credit_amount : JsNum
  default_category : Option ExpenseCategory
  assigned_category : Option ExpenseCategory
  split_percent : Option JsNum
  include_flag : Bool
  is_reconciled_ota : Bool
  note : Option String
  originalData : RawRow
deriving DecidableEq, Repr

/-- Aggregate statistics of `ProcessedDataState`. -/
structure ProcessedStats where
  totalOtaRevenue : JsNum
  totalOtaNet : JsNum
  reconciledCount : Nat
  unreconciledCount : Nat
deriving DecidableEq, Repr

/-- `ProcessedDataState` from src/types.ts. -/
structure ProcessedDataState where
  otaBookings : List CanonicalOtaRow
  glIncome : List CanonicalGlRow
  glExpenses : List CanonicalGlRow
  reviewRows : List CanonicalGlRow
  autoReimbursables : List CanonicalGlRow
  stats : ProcessedStats
deriving DecidableEq, Repr

/-- Single-column GL detection: debit and credit mapped to the same raw
header, and that header nonempty (`""` signals an unmapped field). -/
def isSingleColGl (m : MappingGl) : Bool :=
  m.debit_amount == m.credit_amount && m.debit_amount != ""

/-- The debit/credit sign clean-up of `processData`.  In single-column mode
the (shared) parsed value is a credit when positive, else its absolute value
is a debit.  In two-column mode a negative debit is folded into credit and
then a negative credit into debit.  Returns (debit, credit). -/
def foldSigns (isSingleCol : Bool) (debit credit : JsNum) : JsNum × JsNum :=
  if isSingleCol then
    let val := debit
    if JsNum.lt (.finite 0) val then (.finite 0, val)
    else (JsNum.abs val, .finite 0)
  else
    let dc1 :=
      if JsNum.lt debit (.finite 0) then ((.finite 0 : JsNum), JsNum.add credit (JsNum.abs debit))
      else (debit, credit)
    if JsNum.lt dc1.2 (.finite 0) then (JsNum.add dc1.1 (JsNum.abs dc1.2), (.finite 0 : JsNum))
    else dc1

/-- Case-insensitive classification-table lookup
(`Object.entries(map).find(([k]) => k.toLowerCase() === account.toLowerCase())`). -/
def lookupCategory (cmap : List (String × ExpenseCategory)) (account : String) :
    Option ExpenseCategory :=
  (cmap.find? (fun kv => jsToLower kv.1 == jsToLower account)).map (fun kv => kv.2)

/-- Normalization of one raw OTA row (the `map` body of step 1 of
`processData`). -/
def normalizeOtaRow (m : MappingOta) (id : String) (row : RawRow) : CanonicalOtaRow :=
  { id := id
    reservation_id := cellToStr (getCell row m.reservation_id)
    check_in_date := parseDateLoose (getCell row m.check_in_date)
    check_out_date := parseDateLoose (getCell row m.check_out_date)
    guest_name := cellToStr (getCell row m.guest_name)
    gross_amount := parseNumber (getCell row m.gross_amount)
    ota_fees := parseNumber (getCell row m.ota_fees)
    net_payout := parseNumber (getCell row m.net_payout)
    payout_date := parseDateLoose (getCell row m.payout_date)
    originalData := row }

/-- Normalization of one raw GL row (the `map` body of step 2 of
`processData`). -/
def normalizeGlRow (cmap : List (String × ExpenseCategory)) (isSingleCol : Bool)
    (m : MappingGl) (id : String) (row : RawRow) : CanonicalGlRow :=
  let account := jsTrim (cellToStr (getCell row m.account_name))
  let dc := foldSigns isSingleCol
    (parseNumber (getCell row m.debit_amount)) (parseNumber (getCell row m.credit_amount))
  { id := id
    date := parseDateLoose (getCell row m.date)
    account_name := account
    source_type := cellToStr (getCell row m.source_type)
    description := cellToStr (getCell row m.description)
    contact := cellToStr (getCell row m.contact)
    debit_amount := dc.1
    credit_amount := dc.2
    default_category := lookupCategory cmap account
    assigned_category := none
    split_percent := none
    include_flag := false
    is_reconciled_ota := false
    note := none
    originalData := row }

/-- The reporting-period filter: kept iff the reference date and both period
bounds resolved to valid dates and the reference date lies inside the bounds
(JavaScript comparisons with an Invalid Date are all false). -/
def inPeriod (d startD endD : Option Int) : Bool :=
  match d, startD, endD with
  | some x, some a, some b => decide (a ≤ x ∧ x ≤ b)
  | _, _, _ => false

/-- The period-filter reference date of a booking: check-in date, falling
back to payout date (`row.check_in_date ? ... : (row.payout_date ? ... )`). -/
def otaPeriodDate (r : CanonicalOtaRow) : Option Int :=
  match r.check_in_date with
  | some d => some d
  | none => r.payout_date

/-- The reconciliation reference date of a booking: payout date, falling
back to check-in date (`new Date(ota.payout_date || ota.check_in_date)`). -/
def otaRefDate (r : CanonicalOtaRow) : Option Int :=
  match r.payout_date with
  | some d => some d
  | none => r.check_in_date

/-- Date-window test of the reconciliation candidate predicate: reject when
`glDate < refDate - 3 || glDate > refDate + 3`.  When either date is invalid
both JavaScript comparisons are false, so the rejection never fires. -/
def reconDateOk (glDate refDate : Option Int) : Bool :=
  match glDate, refDate with
  | some d, some r => decide (r - 3 ≤ d ∧ d ≤ r + 3)
  | _, _ => true

/-- Amount-tolerance test of the candidate predicate: reject when
`Math.abs(gl.credit_amount - ota.net_payout) > 2`. -/
def reconAmountOk (glCredit net : JsNum) : Bool :=
  !(JsNum.lt (.finite 2) (JsNum.abs (JsNum.sub glCredit net)))

/-- Text heuristic of the candidate predicate: the lowercased
description+contact must contain "booking", "payout", the nonempty guest
name, or the nonempty reservation id. -/
def reconText (gl : CanonicalGlRow) (ota : CanonicalOtaRow) : Bool :=
  let text := jsToLower (gl.description ++ " " ++ gl.contact)
  let guest := jsToLower ota.guest_name
  let ref := jsToLower ota.reservation_id
  strIncludes text "booking" || strIncludes text "payout" ||
    (guest != "" && strIncludes text guest) || (ref != "" && strIncludes text ref)

/-- The full candidate predicate of `glIncome.find(...)` in `processData`
step 3: not yet reconciled, in the date window, within the amount
tolerance, and passing the text heuristic. -/
def reconCandidate (ota : CanonicalOtaRow) (gl : CanonicalGlRow) : Bool :=
  !gl.is_reconciled_ota &&
    reconDateOk gl.date (otaRefDate ota) &&
    reconAmountOk gl.credit_amount ota.net_payout &&
    reconText gl ota

/-- Candidate predicate over the full normalized ledger: the source searches
`glIncome = allGlRows.filter(credit > 0)`, so membership in the income list
is one more conjunct when searching the master list. -/
def reconCandidateIncome (ota : CanonicalOtaRow) (gl : CanonicalGlRow) : Bool :=
  JsNum.lt (.finite 0) gl.credit_amount && reconCandidate ota gl

/-- The in-place mutation of a matched GL row: set the reconciled flag and
the templated note naming the matched reservation id. -/
def markRow (ota : CanonicalOtaRow) (gl : CanonicalGlRow) : CanonicalGlRow :=
  { gl with
    is_reconciled_ota := true
    note := some ("Reconciled to OTA Booking " ++ ota.reservation_id) }

/-- Apply `f` to the first element satisfying `p`, leaving the rest
unchanged (the pure counterpart of `find` + in-place mutation). -/
def markFirst {α : Type} (p : α → Bool) (f : α → α) : List α → List α
  | [] => []
  | r :: rs => if p r then f r :: rs else r :: markFirst p f rs

/-- One iteration of the reconciliation pass: if some income row is a
candidate for `ota`, mark the first such row and bump the match count. -/
def reconcileStep (ota : CanonicalOtaRow) (st : List CanonicalGlRow × Nat) :
    List CanonicalGlRow × Nat :=
  if (st.1.find? (reconCandidateIncome ota)).isSome then
    (markFirst (reconCandidateIncome ota) (markRow ota) st.1, st.2 + 1)
  else st

/-- The reconciliation pass (`otaBookings.forEach(...)` of `processData`
step 3), over the master ledger list: returns the mutated rows and the
match count. -/
def reconcileAll (gls : List CanonicalGlRow) (otas : List CanonicalOtaRow) :
    List CanonicalGlRow × Nat :=
  otas.foldl (fun st ota => reconcileStep ota st) (gls, 0)

/-- The classification mutation of `processData` step 4, applied to each
expense row (`debit_amount > 0`): REIMBURSABLE is auto-trusted
(`include_flag = true`); MANAGER_ONLY and OWNER_ONLY are assigned but pushed
to neither output list; anything else falls back to the default category or
REVIEW_ALWAYS.  Non-expense rows are untouched. -/
def classifyRow (r : CanonicalGlRow) : CanonicalGlRow :=
  if JsNum.lt (.finite 0) r.debit_amount then
    match r.default_category with
    | some .REIMBURSABLE =>
      { r with assigned_category := some .REIMBURSABLE, include_flag := true }
    | some .MANAGER_ONLY =>
      { r with assigned_category := some .MANAGER_ONLY, include_flag := false }
    | some .OWNER_ONLY =>
      { r with assigned_category := some .OWNER_ONLY, include_flag := false }
    | some c => { r with assigned_category := some c, include_flag := false }
    | none => { r with assigned_category := some .REVIEW_ALWAYS, include_flag := false }
  else r

/-- Membership predicate of the `autoReimbursables` output list: expense
rows whose default category is REIMBURSABLE. -/
def isAutoReimb (r : CanonicalGlRow) : Bool :=
  JsNum.lt (.finite 0) r.debit_amount && r.default_category == some .REIMBURSABLE

/-- Membership predicate of the `reviewRows` output list: expense rows whose
default category is none of REIMBURSABLE, MANAGER_ONLY, OWNER_ONLY. -/
def isReviewRow (r : CanonicalGlRow) : Bool :=
  JsNum.lt (.finite 0) r.debit_amount &&
    r.default_category != some ExpenseCategory.REIMBURSABLE &&
    r.default_category != some ExpenseCategory.MANAGER_ONLY &&
    r.default_category != some ExpenseCategory.OWNER_ONLY

/-- Step 1 of `processData`: normalized and period-filtered OTA bookings.
The k-th raw row receives the k-th generated id. -/
def otaBookingsOf (files : FilesState) (config : ConfigState) (mappings : MappingState)
    (gen : Nat → String) : List CanonicalOtaRow :=
  (files.otaRaw.enum.map (fun ir => normalizeOtaRow mappings.ota (gen ir.1) ir.2)).filter
    (fun r => inPeriod (otaPeriodDate r) (parseIsoDate config.periodStart)
      (parseIsoDate config.periodEnd))

/-- Step 2 of `processData`: normalized and period-filtered GL rows.  Id
generation continues after the OTA rows. -/
def allGlRowsOf (files : FilesState) (config : ConfigState) (mappings : MappingState)
    (gen : Nat → String) : List CanonicalGlRow :=
  (files.glRaw.enum.map (fun ir =>
      normalizeGlRow files.classificationMap (isSingleColGl mappings.gl) mappings.gl
        (gen (files.otaRaw.length + ir.1)) ir.2)).filter
    (fun r => inPeriod r.date (parseIsoDate config.periodStart) (parseIsoDate config.periodEnd))

/-- `processData` from src/services/processor.ts.  The source mutates the
normalized rows in place (reconciliation then classification) and returns
lists of references into the master row set; the model applies the same
mutations functionally to a master list and re-derives each returned list,
preserving membership and order.  `gen` is the identifier stream standing
for the `uuidv4()` calls (see the file header). -/
def processData (files : FilesState) (config : ConfigState) (mappings : MappingState)
    (gen : Nat → String) : ProcessedDataState :=
  let otaBookings := otaBookingsOf files config mappings gen
  let allGlRows := allGlRowsOf files config mappings gen
  let rp := reconcileAll allGlRows otaBookings
  let master := rp.1.map classifyRow
  { otaBookings := otaBookings
    glIncome := master.filter (fun r => JsNum.lt (.finite 0) r.credit_amount)
    glExpenses := master.filter (fun r => JsNum.lt (.finite 0) r.debit_amount)
    reviewRows := master.filter isReviewRow
    autoReimbursables := master.filter isAutoReimb
    stats :=
      { totalOtaRevenue := otaBookings.foldl (fun s r => JsNum.add s r.gross_amount) (.finite 0)
        totalOtaNet := otaBookings.foldl (fun s r => JsNum.add s r.net_payout) (.finite 0)
        reconciledCount := rp.2
        unreconciledCount := otaBookings.length - rp.2 } }

/-- The per-row body of `handleRowChange` in src/components/StepReview.tsx
for a category reassignment (`updates = { assigned_category: cat }`): merge
the update, then apply the category contract switch. -/
def handleRowChangeRow (row : CanonicalGlRow) (cat : ExpenseCategory) : CanonicalGlRow :=
  let updated := { row with assigned_category := some cat }
  match cat with
  | .REIMBURSABLE => { updated with include_flag := true }
  | .SHARED =>
    { updated with
      include_flag := true
      split_percent := some (updated.split_percent.getD (.finite 50)) }
  | .MANAGER_ONLY => { updated with include_flag := false }
  | .OWNER_ONLY => { updated with include_flag := false }
  | .EXCLUDE => { updated with include_flag := false }
  | .REVIEW_ALWAYS => updated

/-- `handleRowChange` from src/components/StepReview.tsx, specialized to a
category reassignment of the row with identifier `id`. -/
def handleRowChange (id : String) (cat : ExpenseCategory)
    (rows : List CanonicalGlRow) : List CanonicalGlRow :=
  rows.map (fun row => if row.id == id then handleRowChangeRow row cat else row)

/-! Concrete fixtures used by counterexamples and witnesses.  Excel serial
45292 is 2024-01-01 (day 19723), 45306 is 2024-01-15, 45309 is 2024-01-18,
45657 is 2024-12-31, so the reporting period below spans calendar 2024. -/

/-- Example OTA column mapping. -/
def exMapOta : MappingOta :=
  { reservation_id := "Ref", check_in_date := "CheckIn", check_out_date := "CheckOut",
    net_payout := "Net", payout_date := "PayoutDate", guest_name := "Guest",
    gross_amount := "Gross", ota_fees := "Fees" }

/-- Example GL column mapping (separate debit/credit columns). -/
def exMapGl : MappingGl :=
  { date := "Date", account_name := "Account", description := "Description",
    contact := "Contact", debit_amount := "Debit", credit_amount := "Credit",
    source_type := "Source" }

/-- Example mapping state. -/
def exMappings : MappingState := { ota := exMapOta, gl := exMapGl }

/-- Example configuration: reporting period = calendar 2024. -/
def exConfig : ConfigState :=
  { periodStart := "2024-01-01", periodEnd := "2024-12-31", managerName := "M",
    managerContact := "", managerBank := "", ownerName := "O",
    mgmtFeePercent := .finite 10, feeBaseMode := "gross_revenue" }

/-- Example identifier stream (stands for one run of `uuidv4`). -/
def exGen : Nat → String := fun n => toString n

/-- A second identifier stream (stands for another run of `uuidv4`). -/
def exGen2 : Nat → String := fun n => "u" ++ toString n

/-- One raw OTA booking: check-in 2024-01-15, payout 2024-01-18, net 500. -/
def exOtaRow : RawRow :=
  [("Ref", .str "HM123"), ("CheckIn", .num (.finite 45306)),
   ("CheckOut", .num (.finite 45310)), ("Net", .num (.finite 500)),
   ("PayoutDate", .num (.finite 45309)), ("Guest", .str "Alice Smith"),
   ("Gross", .num (.finite 600)), ("Fees", .num (.finite 100))]

/-- A GL income row: 2024-01-18, credit 500, OTA-payout wording. -/
def exGlRowIncome : RawRow :=
  [("Date", .num (.finite 45309)), ("Account", .str "Sales"),
   ("Description", .str "Airbnb booking payout"), ("Contact", .str "Airbnb"),
   ("Debit", .str ""), ("Credit", .num (.finite 500)), ("Source", .str "bank")]

/-- Files for the end-to-end reconciliation scenario. -/
def exFilesE2E : FilesState :=
  { otaRaw := [exOtaRow], glRaw := [exGlRowIncome], classificationMap := [] }

/-- A GL expense row on an account the table classifies MANAGER_ONLY. -/
def exGlRowMgr : RawRow :=
  [("Date", .num (.finite 45306)), ("Account", .str "Repairs"),
   ("Description", .str "fix sink"), ("Contact", .str "Bob Plumbing"),
   ("Debit", .num (.finite 80)), ("Credit", .str ""), ("Source", .str "bank")]

/-- Files with a single MANAGER_ONLY-classified expense. -/
def exFilesMgr : FilesState :=
  { otaRaw := [], glRaw := [exGlRowMgr], classificationMap := [("Repairs", .MANAGER_ONLY)] }

/-- A GL row whose debit and credit cells are both positive. -/
def exGlRowBoth : RawRow :=
  [("Date", .num (.finite 45306)), ("Account", .str "Misc"),
   ("Description", .str "odd export"), ("Contact", .str "x"),
   ("Debit", .num (.finite 5)), ("Credit", .num (.finite 3)), ("Source", .str "")]

/-- Files with a single both-columns-positive GL row. -/
def exFilesBoth : FilesState :=
  { otaRaw := [], glRaw := [exGlRowBoth], classificationMap := [] }

/-- A GL expense row on an account the table classifies SHARED. -/
def exGlRowShared : RawRow :=
  [("Date", .num (.finite 45306)), ("Account", .str "Lawn"),
   ("Description", .str "mowing"), ("Contact", .str "y"),
   ("Debit", .num (.finite 40)), ("Credit", .str ""), ("Source", .str "")]

/-- Files with a single SHARED-classified expense. -/
def exFilesShared : FilesState :=
  { otaRaw := [], glRaw := [exGlRowShared], classificationMap := [("Lawn", .SHARED)] }

/-- Single-signed-column GL mapping: debit and credit both read "Amount". -/
def exMapGlSingle : MappingGl :=
  { date := "Date", account_name := "Account", description := "Description",
    contact := "Contact", debit_amount := "Amount", credit_amount := "Amount",
    source_type := "Source" }

/-- Mapping state in single-column GL mode. -/
def exMappingsSingle : MappingState := { ota := exMapOta, gl := exMapGlSingle }

/-- Files with one signed "Amount" column holding values [100, -50]. -/
def exFilesSingle : FilesState :=
  { otaRaw := [],
    glRaw := [[("Date", .num (.finite 45306)), ("Account", .str "A"),
               ("Description", .str "d1"), ("Contact", .str "c"),
               ("Amount", .num (.finite 100)), ("Source", .str "")],
              [("Date", .num (.finite 45307)), ("Account", .str "B"),
               ("Description", .str "d2"), ("Contact", .str "c"),
               ("Amount", .num (.finite (-50))), ("Source", .str "")]],
    classificationMap := [] }

/-- Files with one GL row whose amount cells are unparseable (both fold to
zero) but whose date is inside the period. -/
def exFilesZero : FilesState :=
  { otaRaw := [],
    glRaw := [[("Date", .num (.finite 45306)), ("Account", .str "Z"),
               ("Description", .str "junk"), ("Contact", .str "c"),
               ("Debit", .str "abc"), ("Credit", .str ""), ("Source", .str "")]],
    classificationMap := [] }

/-- A raw OTA row with the given Excel serial check-in date and no payout
date. -/
def mkOtaRaw (serial : ℚ) : RawRow :=
  [("Ref", .str "R1"), ("CheckIn", .num (.finite serial)), ("Net", .num (.finite 100)),
   ("PayoutDate", .str ""), ("Guest", .str "G"), ("Gross", .num (.finite 100)),
   ("Fees", .str "")]

/-- Files holding one booking with the given check-in serial. -/
def mkOtaFiles (serial : ℚ) : FilesState :=
  { otaRaw := [mkOtaRaw serial], glRaw := [], classificationMap := [] }

/-! Helper lemmas shared across the verified properties. -/

/-- An absolute value is never negative (NaN is not `< 0` either). -/
theorem abs_not_lt_zero (x : JsNum) : JsNum.lt (JsNum.abs x) (.finite 0) = false := by
  cases x <;> simp [JsNum.abs, JsNum.lt]

/-- The sum of two non-negative JavaScript numbers is not negative. -/
theorem add_not_lt_zero {a b : JsNum} (ha : JsNum.lt a (.finite 0) = false)
    (hb : JsNum.lt b (.finite 0) = false) :
    JsNum.lt (JsNum.add a b) (.finite 0) = false := by
  cases a <;> cases b <;> simp_all [JsNum.add, JsNum.lt]
  linarith

/-- JavaScript `<` is irreflexive. -/
theorem lt_self_js (x : JsNum) : JsNum.lt x x = false := by
  cases x <;> simp [JsNum.lt]

/-- JavaScript `<` is asymmetric. -/
theorem lt_asymm_js {a b : JsNum} (h : JsNum.lt a b = true) : JsNum.lt b a = false := by
  cases a <;> cases b <;> simp_all [JsNum.lt]
  linarith

/-- Full behaviour of the sign clean-up: neither output is negative, and
both outputs strictly positive forces two-column mode with both parsed
inputs strictly positive. -/
theorem foldSigns_spec (sc : Bool) (d c : JsNum) :
    JsNum.lt (foldSigns sc d c).1 (.finite 0) = false ∧
    JsNum.lt (foldSigns sc d c).2 (.finite 0) = false ∧
    (JsNum.lt (.finite 0) (foldSigns sc d c).1 = true →
     JsNum.lt (.finite 0) (foldSigns sc d c).2 = true →
     sc = false ∧ JsNum.lt (.finite 0) d = true ∧ JsNum.lt (.finite 0) c = true) := by
  unfold foldSigns
  cases sc with
  | true =>
    rw [if_pos rfl]
    by_cases h : JsNum.lt (.finite 0) d = true
    · rw [if_pos h]
      exact ⟨lt_self_js _, lt_asymm_js h,
        fun h1 _ => absurd h1 (by simp [lt_self_js])⟩
    · rw [if_neg h]
      exact ⟨abs_not_lt_zero d, lt_self_js _,
        fun _ h2 => absurd h2 (by simp [lt_self_js])⟩
  | false =>
    rw [if_neg Bool.false_ne_true]
    by_cases h1 : JsNum.lt d (.finite 0) = true
    · rw [if_pos h1]
      by_cases h2 : JsNum.lt (JsNum.add c (JsNum.abs d)) (.finite 0) = true
      · rw [if_pos h2]
        exact ⟨add_not_lt_zero (lt_self_js _) (abs_not_lt_zero _), lt_self_js _,
          fun _ hb => absurd hb (by simp [lt_self_js])⟩
      · rw [if_neg h2]
        exact ⟨lt_self_js _, Bool.eq_false_iff.mpr h2,
          fun ha _ => absurd ha (by simp [lt_self_js])⟩
    · rw [if_neg h1]
      by_cases h2 : JsNum.lt c (.finite 0) = true
      · rw [if_pos h2]
        exact ⟨add_not_lt_zero (Bool.eq_false_iff.mpr h1) (abs_not_lt_zero _), lt_self_js _,
          fun _ hb => absurd hb (by simp [lt_self_js])⟩
      · rw [if_neg h2]
        exact ⟨Bool.eq_false_iff.mpr h1, Bool.eq_false_iff.mpr h2,
          fun ha hb => ⟨rfl, ha, hb⟩⟩

/-- `markFirst` preserves any property that `f` preserves. -/
theorem mem_markFirst {α : Type} (p : α → Bool) (f : α → α) (Q : α → Prop)
    (hf : ∀ a, Q a → Q (f a)) :
    ∀ l : List α, (∀ a ∈ l, Q a) → ∀ a ∈ markFirst p f l, Q a := by
  intro l
  induction l with
  | nil => intro _ a ha; simp [markFirst] at ha
  | cons r rs ih =>
    intro hall a ha
    unfold markFirst at ha
    by_cases hp : p r = true
    · rw [if_pos hp] at ha
      rcases List.mem_cons.mp ha with h | h
      · exact h ▸ hf r (hall r (List.mem_cons_self r rs))
      · exact hall a (List.mem_cons_of_mem r h)
    · rw [if_neg hp] at ha
      rcases List.mem_cons.mp ha with h | h
      · exact h ▸ hall r (List.mem_cons_self r rs)
      · exact ih (fun b hb => hall b (List.mem_cons_of_mem r hb)) a h

/-- One reconciliation step preserves any property that `markRow` preserves. -/
theorem mem_reconcileStep (Q : CanonicalGlRow → Prop)
    (hMark : ∀ ota r, Q r → Q (markRow ota r)) (ota : CanonicalOtaRow)
    (st : List CanonicalGlRow × Nat) (h : ∀ r ∈ st.1, Q r) :
    ∀ r ∈ (reconcileStep ota st).1, Q r := by
  unfold reconcileStep
  by_cases hf : (st.1.find? (reconCandidateIncome ota)).isSome = true
  · rw [if_pos hf]
    exact mem_markFirst _ _ Q (hMark ota) st.1 h
  · rw [if_neg hf]
    exact h

/-- The reconciliation fold preserves any property that `markRow` preserves. -/
theorem mem_reconcileFold (Q : CanonicalGlRow → Prop)
    (hMark : ∀ ota r, Q r → Q (markRow ota r)) :
    ∀ (otas : List CanonicalOtaRow) (st : List CanonicalGlRow × Nat),
      (∀ r ∈ st.1, Q r) →
      ∀ r ∈ (otas.foldl (fun s o => reconcileStep o s) st).1, Q r := by
  intro otas
  induction otas with
  | nil => intro st h; simpa using h
  | cons o os ih =>
    intro st h
    exact ih (reconcileStep o st) (mem_reconcileStep Q hMark o st h)

/-- The reconciliation pass preserves any property that `markRow` preserves. -/
theorem mem_reconcileAll (Q : CanonicalGlRow → Prop)
    (hMark : ∀ ota r, Q r → Q (markRow ota r)) (gls : List CanonicalGlRow)
    (otas : List CanonicalOtaRow) (h : ∀ r ∈ gls, Q r) :
    ∀ r ∈ (reconcileAll gls otas).1, Q r :=
  mem_reconcileFold Q hMark otas (gls, 0) h

/-- Every GL row in any of the four returned ledger lists satisfies any
property that holds on the normalized rows and is preserved by the
reconciliation mark and the classification mutation. -/
theorem mem_processData_gl (Q : CanonicalGlRow → Prop)
    (files : FilesState) (config : ConfigState) (mappings : MappingState) (gen : Nat → String)
    (hInit : ∀ r ∈ allGlRowsOf files config mappings gen, Q r)
    (hMark : ∀ ota r, Q r → Q (markRow ota r))
    (hClass : ∀ r, Q r → Q (classifyRow r)) :
    ∀ r, (r ∈ (processData files config mappings gen).glIncome ∨
          r ∈ (processData files config mappings gen).glExpenses ∨
          r ∈ (processData files config mappings gen).reviewRows ∨
          r ∈ (processData files config mappings gen).autoReimbursables) → Q r := by
  have hmaster : ∀ r ∈ (reconcileAll (allGlRowsOf files config mappings gen)
      (otaBookingsOf files config mappings gen)).1.map classifyRow, Q r := by
    intro r hr
    rcases List.mem_map.mp hr with ⟨r0, hr0, rfl⟩
    exact hClass r0 (mem_reconcileAll Q hMark _ _ hInit r0 hr0)
  intro r hr
  rcases hr with h | h | h | h <;>
    exact hmaster r (List.mem_filter.mp h).1

/-- A normalized GL row passed the period filter and is the image of some
raw row under `normalizeGlRow`. -/
theorem mem_allGlRowsOf {files : FilesState} {config : ConfigState} {mappings : MappingState}
    {gen : Nat → String} {r : CanonicalGlRow} (h : r ∈ allGlRowsOf files config mappings gen) :
    inPeriod r.date (parseIsoDate config.periodStart) (parseIsoDate config.periodEnd) = true ∧
    ∃ idx row, r = normalizeGlRow files.classificationMap (isSingleColGl mappings.gl)
      mappings.gl (gen idx) row := by
  unfold allGlRowsOf at h
  have h1 := List.mem_filter.mp h
  refine ⟨h1.2, ?_⟩
  rcases List.mem_map.mp h1.1 with ⟨ir, _, rfl⟩
  exact ⟨files.otaRaw.length + ir.1, ir.2, rfl⟩

/-- A returned booking passed the period filter. -/
theorem mem_otaBookingsOf {files : FilesState} {config : ConfigState} {mappings : MappingState}
    {gen : Nat → String} {r : CanonicalOtaRow} (h : r ∈ otaBookingsOf files config mappings gen) :
    inPeriod (otaPeriodDate r) (parseIsoDate config.periodStart)
      (parseIsoDate config.periodEnd) = true := by
  unfold otaBookingsOf at h
  exact (List.mem_filter.mp h).2

/-- `markRow` only touches the reconciliation flag and note. -/
theorem markRow_fields (ota : CanonicalOtaRow) (r : CanonicalGlRow) :
    (markRow ota r).debit_amount = r.debit_amount ∧
    (markRow ota r).credit_amount = r.credit_amount ∧
    (markRow ota r).originalData = r.originalData ∧
    (markRow ota r).date = r.date ∧
    (markRow ota r).default_category = r.default_category :=
  ⟨rfl, rfl, rfl, rfl, rfl⟩

/-- `classifyRow` only touches the assigned category and include flag. -/
theorem classifyRow_fields (r : CanonicalGlRow) :
    (classifyRow r).debit_amount = r.debit_amount ∧
    (classifyRow r).credit_amount = r.credit_amount ∧
    (classifyRow r).originalData = r.originalData ∧
    (classifyRow r).date = r.date ∧
    (classifyRow r).default_category = r.default_category := by
  unfold classifyRow
  split
  · split <;> simp
  · simp

/-- All elements of a filtered list satisfy any consequence of the filter
predicate. -/
theorem filter_all_imp (l : List CanonicalGlRow) (p q : CanonicalGlRow → Bool)
    (h : ∀ a, p a = true → q a = true) : (l.filter p).all q = true := by
  simp only [List.all_eq_true]
  intro a ha
  exact h a (List.mem_filter.mp ha).2

/-- A fully processed concrete GL expense row with a SHARED default. -/
def exGlCanon : CanonicalGlRow :=
  { id := "g1", date := some 19737, account_name := "Lawn", source_type := "",
    description := "mowing", contact := "y", debit_amount := .finite 40,
    credit_amount := .finite 0, default_category := some .SHARED,
    assigned_category := none, split_percent := none, include_flag := false,
    is_reconciled_ota := false, note := none, originalData := [] }

/-- The processed form of the both-columns-positive fixture row. -/
def exRowBothProcessed : CanonicalGlRow :=
  classifyRow (normalizeGlRow [] false exMapGl "0" exGlRowBoth)

/-- The processed form of the SHARED-classified fixture row. -/
def exRowSharedProcessed : CanonicalGlRow :=
  classifyRow (normalizeGlRow [("Lawn", .SHARED)] false exMapGl "0" exGlRowShared)

/-- C1 (counterexample): a GL expense row whose default category is
MANAGER_ONLY is returned in `glExpenses` but appears in neither
`autoReimbursables` nor `reviewRows` — both partitions are empty while the
expense list has one row, refuting "exactly one partition, regardless of
default_category". -/
theorem c1_counterexample :
    (processData exFilesMgr exConfig exMappings exGen).glExpenses.length = 1 ∧
    ((processData exFilesMgr exConfig exMappings exGen).glExpenses.map
      (fun r => r.default_category)) = [some ExpenseCategory.MANAGER_ONLY] ∧
    (processData exFilesMgr exConfig exMappings exGen).autoReimbursables = [] ∧
    (processData exFilesMgr exConfig exMappings exGen).reviewRows = [] := by
  refine ⟨?_, ?_, ?_, ?_⟩ <;> decide

/-- C1 (amended): a returned GL expense row lands in `autoReimbursables`
exactly when its default category is REIMBURSABLE and in `reviewRows`
exactly when its default category is none of REIMBURSABLE, MANAGER_ONLY,
OWNER_ONLY; hence the two partitions are disjoint, and rows whose default
category is MANAGER_ONLY or OWNER_ONLY appear in neither. -/
theorem c1_amended (files : FilesState) (config : ConfigState) (mappings : MappingState)
    (gen : Nat → String) :
    (∀ r, r ∈ (processData files config mappings gen).autoReimbursables ↔
      r ∈ (processData files config mappings gen).glExpenses ∧
        r.default_category = some ExpenseCategory.REIMBURSABLE) ∧
    (∀ r, r ∈ (processData files config mappings gen).reviewRows ↔
      r ∈ (processData files config mappings gen).glExpenses ∧
        r.default_category ≠ some ExpenseCategory.REIMBURSABLE ∧
        r.default_category ≠ some ExpenseCategory.MANAGER_ONLY ∧
        r.default_category ≠ some ExpenseCategory.OWNER_ONLY) := by
  constructor <;> intro r <;>
    simp [processData, List.mem_filter, isAutoReimb, isReviewRow, and_assoc]

/-- C1 (witness): the amended characterization applied to a concrete run:
the processed SHARED row is a member of `reviewRows`. -/
theorem c1_witness :
    exRowSharedProcessed ∈ (processData exFilesShared exConfig exMappings exGen).reviewRows :=
  ((c1_amended exFilesShared exConfig exMappings exGen).2 exRowSharedProcessed).mpr
    ⟨by decide, by decide, by decide, by decide⟩

/-- C2 (counterexample): in two-column mode a raw row with debit cell 5 and
credit cell 3 survives normalization with `debit_amount = 5 > 0` and
`credit_amount = 3 > 0` simultaneously — the folding never fires, refuting
"NOT (debit_amount > 0 AND credit_amount > 0)" for all rows. -/
theorem c2_counterexample :
    ((processData exFilesBoth exConfig exMappings exGen).glExpenses.map
      (fun r => (JsNum.lt (.finite 0) r.debit_amount,
                 JsNum.lt (.finite 0) r.credit_amount))) = [(true, true)] ∧
    ((processData exFilesBoth exConfig exMappings exGen).glExpenses.map
      (fun r => (r.debit_amount, r.credit_amount))) = [(.finite 5, .finite 3)] := by
  refine ⟨?_, ?_⟩ <;> decide

/-- C2 (amended): after folding, no ledger row of the returned result has a
negative debit or credit; and a row with both fields strictly positive can
arise only in two-column mode from a raw row whose debit and credit cells
both parse strictly positive — in particular the exclusivity invariant does
hold in single-column mode and whenever at most one input cell is
positive. -/
theorem c2_amended (files : FilesState) (config : ConfigState) (mappings : MappingState)
    (gen : Nat → String) :
    ∀ r, (r ∈ (processData files config mappings gen).glIncome ∨
          r ∈ (processData files config mappings gen).glExpenses ∨
          r ∈ (processData files config mappings gen).reviewRows ∨
          r ∈ (processData files config mappings gen).autoReimbursables) →
      JsNum.lt r.debit_amount (.finite 0) = false ∧
      JsNum.lt r.credit_amount (.finite 0) = false ∧
      (JsNum.lt (.finite 0) r.debit_amount = true →
       JsNum.lt (.finite 0) r.credit_amount = true →
        isSingleColGl mappings.gl = false ∧
        JsNum.lt (.finite 0) (parseNumber (getCell r.originalData mappings.gl.debit_amount)) = true ∧
        JsNum.lt (.finite 0) (parseNumber (getCell r.originalData mappings.gl.credit_amount)) = true) := by
  apply mem_processData_gl
  · intro r hr
    obtain ⟨-, idx, row, rfl⟩ := mem_allGlRowsOf hr
    have hs := foldSigns_spec (isSingleColGl mappings.gl)
      (parseNumber (getCell row mappings.gl.debit_amount))
      (parseNumber (getCell row mappings.gl.credit_amount))
    simp only [normalizeGlRow] at *
    exact ⟨hs.1, hs.2.1, fun h1 h2 => (hs.2.2 h1 h2).elim
      (fun hsc h' => ⟨hsc, h'⟩)⟩
  · intro ota r hq
    obtain ⟨h1, h2, h3, -, -⟩ := markRow_fields ota r
    rw [h1, h2, h3]
    exact hq
  · intro r hq
    obtain ⟨h1, h2, h3, -, -⟩ := classifyRow_fields r
    rw [h1, h2, h3]
    exact hq

/-- C2 (witness): the amended invariant applied to the concrete row of the
both-positive run, whose membership in `glExpenses` is checked by
evaluation. -/
theorem c2_witness :
    JsNum.lt exRowBothProcessed.debit_amount (.finite 0) = false ∧
    JsNum.lt exRowBothProcessed.credit_amount (.finite 0) = false :=
  ⟨(c2_amended exFilesBoth exConfig exMappings exGen exRowBothProcessed
      (Or.inr (Or.inl (by decide)))).1,
   (c2_amended exFilesBoth exConfig exMappings exGen exRowBothProcessed
      (Or.inr (Or.inl (by decide)))).2.1⟩

/-- C3 (counterexample): a GL expense row classified SHARED by the
classification table is routed to `reviewRows` with `include_flag = false`
and no `split_percent` default — the table-triggered path does not enforce
the SHARED contract the claim asserts for both paths. -/
theorem c3_counterexample :
    ((processData exFilesShared exConfig exMappings exGen).reviewRows.map
      (fun r => (r.assigned_category, r.include_flag, r.split_percent))) =
    [(some ExpenseCategory.SHARED, false, (none : Option JsNum))] := by decide

/-- C3 (amended): the manual-review path (`handleRowChange`) enforces the
full reassignment contract — REIMBURSABLE and SHARED set
`include_flag = true`, SHARED defaults `split_percent` to 50 when unset,
MANAGER_ONLY / OWNER_ONLY / EXCLUDE set `include_flag = false` — while the
classification path (`classifyRow`) leaves a table-assigned SHARED row with
`include_flag = false` and `split_percent` untouched. -/
theorem c3_amended :
    (∀ (r : CanonicalGlRow) (cat : ExpenseCategory),
      (handleRowChangeRow r cat).assigned_category = some cat ∧
      (cat = .REIMBURSABLE → (handleRowChangeRow r cat).include_flag = true) ∧
      (cat = .SHARED → (handleRowChangeRow r cat).include_flag = true ∧
        (handleRowChangeRow r cat).split_percent = some (r.split_percent.getD (.finite 50))) ∧
      ((cat = .MANAGER_ONLY ∨ cat = .OWNER_ONLY ∨ cat = .EXCLUDE) →
        (handleRowChangeRow r cat).include_flag = false)) ∧
    (∀ r : CanonicalGlRow, JsNum.lt (.finite 0) r.debit_amount = true →
      r.default_category = some ExpenseCategory.SHARED →
      (classifyRow r).assigned_category = some ExpenseCategory.SHARED ∧
      (classifyRow r).include_flag = false ∧
      (classifyRow r).split_percent = r.split_percent) := by
  constructor
  · intro r cat
    cases cat <;> simp [handleRowChangeRow]
  · intro r h1 h2
    simp [classifyRow, h1, h2]

/-- C3 (witness): the amended contract applied to a concrete SHARED row:
the manual path sets the flag and the 50% default, the classification path
does not. -/
theorem c3_witness :
    (handleRowChangeRow exGlCanon ExpenseCategory.SHARED).include_flag = true ∧
    (handleRowChangeRow exGlCanon ExpenseCategory.SHARED).split_percent = some (JsNum.finite 50) ∧
    (classifyRow exGlCanon).include_flag = false ∧
    (classifyRow exGlCanon).split_percent = none :=
  ⟨((c3_amended.1 exGlCanon .SHARED).2.2.1 rfl).1,
   by have h := ((c3_amended.1 exGlCanon .SHARED).2.2.1 rfl).2; simpa using h,
   (c3_amended.2 exGlCanon (by decide) rfl).2.1,
   by have h := (c3_amended.2 exGlCanon (by decide) rfl).2.2; simpa using h⟩

set_option maxRecDepth 40000 in
set_option exponentiation.threshold 1100 in
/-- C9 (counterexample): a NaN numeric input is returned as-is by
`parseNumber`, so its output is NaN and not finite; and a 310-digit string
overflows `parseFloat` to Infinity, so even a string input can produce a
non-finite result — refuting "always a finite number, never NaN" for every
input. -/
theorem c9_counterexample :
    parseNumber (Value.num JsNum.nan) = JsNum.nan ∧
    JsNum.isNaN (parseNumber (Value.num JsNum.nan)) = true ∧
    JsNum.isFin (parseNumber (Value.num JsNum.nan)) = false ∧
    JsNum.isFin (parseNumber (Value.str (String.mk (List.replicate 310 '9')))) = false :=
  ⟨rfl, rfl, rfl, by decide⟩

/-- `parseFloat` on a digit-bearing cleaned string never yields NaN: the
result is an in-range rational or a saturated ±Infinity. -/
theorem parseFloatClean_ne_nan (s : String) : parseFloatClean s ≠ some JsNum.nan := by
  unfold parseFloatClean
  rcases parseFloatExact s with - | q
  · simp
  · simp only [Option.map_some', Option.some.injEq]
    split
    · split <;> simp
    · simp

/-- A non-NaN JavaScript number is finite or one of the two infinities. -/
theorem jsnum_trichotomy (x : JsNum) (h : JsNum.isNaN x = false) :
    JsNum.isFin x = true ∨ x = JsNum.inf ∨ x = JsNum.ninf := by
  cases x <;> simp_all [JsNum.isNaN, JsNum.isFin]

set_option maxRecDepth 40000 in
set_option exponentiation.threshold 1100 in
/-- C9 (amended): `parseNumber` never returns NaN for a string or absent
input; a string result is finite or — when the digit magnitude reaches the
IEEE binary64 overflow threshold, as for a 310-digit number — ±Infinity
(shown concretely below), an absent cell gives 0, and a numeric input is
returned as-is, so non-finite numeric inputs (NaN, ±Infinity)
propagate. -/
theorem c9_amended :
    (∀ s : String, JsNum.isNaN (parseNumber (Value.str s)) = false) ∧
    (∀ s : String, JsNum.isFin (parseNumber (Value.str s)) = true ∨
      parseNumber (Value.str s) = JsNum.inf ∨ parseNumber (Value.str s) = JsNum.ninf) ∧
    parseNumber (Value.str (String.mk (List.replicate 310 '9'))) = JsNum.inf ∧
    JsNum.isFin (parseNumber Value.absent) = true ∧
    (∀ n : JsNum, parseNumber (Value.num n) = n) := by
  have h1 : ∀ s : String, JsNum.isNaN (parseNumber (Value.str s)) = false := by
    intro s
    show JsNum.isNaN (if s == "" then .finite 0 else _) = false
    split
    · rfl
    · rcases hp : parseFloatClean (stripNonNumeric (jsTrim s)) with - | n
      · simp [hp, JsNum.isNaN]
      · have hn : n ≠ JsNum.nan := by
          intro he
          rw [he] at hp
          exact parseFloatClean_ne_nan _ hp
        simp only [hp]
        clear hp
        split
        · cases n <;> simp_all [JsNum.abs, JsNum.neg, JsNum.isNaN]
        · cases n <;> simp_all [JsNum.isNaN]
  refine ⟨h1, fun s => jsnum_trichotomy _ (h1 s), ?_, rfl, fun n => rfl⟩
  decide

/-- C10 (confirmed): every row of `glIncome` has a strictly positive
credit and every row of `glExpenses`, `reviewRows` and `autoReimbursables`
a strictly positive debit, so a normalized row with debit = credit = 0
appears in none of the returned ledger lists; the concrete conjuncts show a
zero-amount row that passes the period filter (one normalized row) and is
nevertheless absent from every returned list. -/
theorem c10_confirmed (files : FilesState) (config : ConfigState) (mappings : MappingState)
    (gen : Nat → String) :
    ((processData files config mappings gen).glIncome.all
      (fun r => JsNum.lt (.finite 0) r.credit_amount) = true ∧
    (processData files config mappings gen).glExpenses.all
      (fun r => JsNum.lt (.finite 0) r.debit_amount) = true ∧
    (processData files config mappings gen).reviewRows.all
      (fun r => JsNum.lt (.finite 0) r.debit_amount) = true ∧
    (processData files config mappings gen).autoReimbursables.all
      (fun r => JsNum.lt (.finite 0) r.debit_amount) = true) ∧
    ((allGlRowsOf exFilesZero exConfig exMappings exGen).length = 1 ∧
    (processData exFilesZero exConfig exMappings exGen).glIncome = [] ∧
    (processData exFilesZero exConfig exMappings exGen).glExpenses = [] ∧
    (processData exFilesZero exConfig exMappings exGen).reviewRows = [] ∧
    (processData exFilesZero exConfig exMappings exGen).autoReimbursables = []) := by
  constructor
  · refine ⟨?_, ?_, ?_, ?_⟩
    · exact filter_all_imp _ _ _ (fun a h => h)
    · exact filter_all_imp _ _ _ (fun a h => h)
    · exact filter_all_imp _ _ _ (fun a h => by simp [isReviewRow] at h; exact h.1.1.1)
    · exact filter_all_imp _ _ _ (fun a h => by simp [isAutoReimb] at h; exact h.1)
  · refine ⟨?_, ?_, ?_, ?_, ?_⟩ <;> decide

/-- The implication relation on a property is reflexive along a list. -/
theorem forall2_refl_imp (P : CanonicalGlRow → Prop) (l : List CanonicalGlRow) :
    List.Forall₂ (fun a b => P a → P b) l l := by
  induction l with
  | nil => exact List.Forall₂.nil
  | cons a t ih => exact List.Forall₂.cons (fun h => h) ih

/-- Pointwise implication along lists composes. -/
theorem forall2_imp_trans (P : CanonicalGlRow → Prop) :
    ∀ {a b c : List CanonicalGlRow},
      List.Forall₂ (fun x y => P x → P y) a b →
      List.Forall₂ (fun x y => P x → P y) b c →
      List.Forall₂ (fun x y => P x → P y) a c := by
  intro a b c h1
  induction h1 generalizing c with
  | nil => intro h2; cases h2; exact List.Forall₂.nil
  | cons hab t ih =>
    intro h2
    cases h2 with
    | cons hbc t2 => exact List.Forall₂.cons (fun h => hbc (hab h)) (ih t2)

/-- `markFirst` relates input and output pointwise: every element implies
its (possibly updated) successor for any property `f` preserves. -/
theorem markFirst_forall2 (P : CanonicalGlRow → Prop) (p : CanonicalGlRow → Bool)
    (f : CanonicalGlRow → CanonicalGlRow) (hf : ∀ a, P a → P (f a)) :
    ∀ l : List CanonicalGlRow,
      List.Forall₂ (fun x y => P x → P y) l (markFirst p f l) := by
  intro l
  induction l with
  | nil => exact List.Forall₂.nil
  | cons r rs ih =>
    unfold markFirst
    by_cases hp : p r = true
    · rw [if_pos hp]
      exact List.Forall₂.cons (hf r) (forall2_refl_imp P rs)
    · rw [if_neg hp]
      exact List.Forall₂.cons (fun h => h) ih

/-- One reconciliation step never clears a reconciliation flag. -/
theorem reconcileStep_flagMono (ota : CanonicalOtaRow) (st : List CanonicalGlRow × Nat) :
    List.Forall₂ (fun x y => x.is_reconciled_ota = true → y.is_reconciled_ota = true)
      st.1 (reconcileStep ota st).1 := by
  unfold reconcileStep
  by_cases hf : (st.1.find? (reconCandidateIncome ota)).isSome = true
  · rw [if_pos hf]
    exact markFirst_forall2 (fun r => r.is_reconciled_ota = true) _ _ (fun a _ => rfl) st.1
  · rw [if_neg hf]
    exact forall2_refl_imp _ st.1

/-- The whole reconciliation pass never clears a reconciliation flag. -/
theorem reconcileFold_flagMono :
    ∀ (otas : List CanonicalOtaRow) (st : List CanonicalGlRow × Nat),
      List.Forall₂ (fun x y => x.is_reconciled_ota = true → y.is_reconciled_ota = true)
        st.1 ((otas.foldl (fun s o => reconcileStep o s) st)).1 := by
  intro otas
  induction otas with
  | nil => intro st; exact forall2_refl_imp _ st.1
  | cons o os ih =>
    intro st
    exact forall2_imp_trans _ (reconcileStep_flagMono o st) (ih (reconcileStep o st))

/-- `markFirst` changes at most one element, so any count grows by at most
one. -/
theorem countP_markFirst (p : CanonicalGlRow → Bool) (f : CanonicalGlRow → CanonicalGlRow)
    (q : CanonicalGlRow → Bool) :
    ∀ l : List CanonicalGlRow, (markFirst p f l).countP q ≤ l.countP q + 1 := by
  intro l
  induction l with
  | nil => simp [markFirst]
  | cons r rs ih =>
    unfold markFirst
    by_cases hp : p r = true
    · rw [if_pos hp]
      simp only [List.countP_cons]
      cases hq : q (f r) <;> cases hq2 : q r <;> simp
      omega
    · rw [if_neg hp]
      simp only [List.countP_cons]
      cases hq2 : q r <;> simp <;> omega

/-- C5 (confirmed): reconciliation claims each GL income row at most once —
positionally, a row flagged `is_reconciled_ota` stays flagged through the
whole pass; each booking\'s step raises the number of flagged rows by at
most one; an already-flagged row never satisfies the candidate predicate
again; and marking sets the flag together with the note naming the matched
reservation id. -/
theorem c5_confirmed (gls : List CanonicalGlRow) (otas : List CanonicalOtaRow) :
    List.Forall₂ (fun a b => a.is_reconciled_ota = true → b.is_reconciled_ota = true)
      gls (reconcileAll gls otas).1 ∧
    (∀ (ota : CanonicalOtaRow) (st : List CanonicalGlRow × Nat),
      (reconcileStep ota st).1.countP (fun r => r.is_reconciled_ota) ≤
        st.1.countP (fun r => r.is_reconciled_ota) + 1) ∧
    (∀ (ota : CanonicalOtaRow) (r : CanonicalGlRow), r.is_reconciled_ota = true →
      reconCandidateIncome ota r = false) ∧
    (∀ (ota : CanonicalOtaRow) (r : CanonicalGlRow),
      (markRow ota r).is_reconciled_ota = true ∧
      (markRow ota r).note = some ("Reconciled to OTA Booking " ++ ota.reservation_id)) := by
  refine ⟨reconcileFold_flagMono otas (gls, 0), ?_, ?_, fun ota r => ⟨rfl, rfl⟩⟩
  · intro ota st
    unfold reconcileStep
    by_cases hf : (st.1.find? (reconCandidateIncome ota)).isSome = true
    · rw [if_pos hf]
      exact countP_markFirst _ _ _ st.1
    · rw [if_neg hf]
      omega
  · intro ota r h
    simp [reconCandidateIncome, reconCandidate, h]

/-- C5 (witness): the at-most-once theorem instantiated on the concrete
end-to-end run. -/
theorem c5_witness :
    List.Forall₂ (fun a b => a.is_reconciled_ota = true → b.is_reconciled_ota = true)
      (allGlRowsOf exFilesE2E exConfig exMappings exGen)
      (reconcileAll (allGlRowsOf exFilesE2E exConfig exMappings exGen)
        (otaBookingsOf exFilesE2E exConfig exMappings exGen)).1 :=
  (c5_confirmed (allGlRowsOf exFilesE2E exConfig exMappings exGen)
    (otaBookingsOf exFilesE2E exConfig exMappings exGen)).1

/-- A concrete canonical booking (net payout 500, reference date day
19740). -/
def exOtaCanon : CanonicalOtaRow :=
  { id := "o1", reservation_id := "HM123", check_in_date := some 19737,
    check_out_date := none, guest_name := "Alice Smith", gross_amount := .finite 600,
    ota_fees := .finite 100, net_payout := .finite 500, payout_date := some 19740,
    originalData := [] }

/-- A concrete unreconciled GL income row: credit 502, day 19743 (three
days after the booking reference date), OTA wording in the description. -/
def exGlRecon : CanonicalGlRow :=
  { id := "g2", date := some 19743, account_name := "Sales", source_type := "",
    description := "Airbnb booking payout", contact := "Airbnb",
    debit_amount := .finite 0, credit_amount := .finite 502,
    default_category := none, assigned_category := none, split_percent := none,
    include_flag := false, is_reconciled_ota := false, note := none, originalData := [] }

/-- C6 (confirmed): for an unreconciled GL income row passing the text
heuristic, with finite amounts and valid dates, the candidate predicate has
inclusive boundaries: it accepts whenever the credit differs from the net
payout by at most 2 (so exactly 2.00 matches) and the dates differ by at
most 3 days (so exactly 3 matches), rejects at a difference of 2.01, and
rejects at 4 days. -/
theorem c6_confirmed (ota : CanonicalOtaRow) (gl : CanonicalGlRow) (c n : ℚ) (d r : Int)
    (hflag : gl.is_reconciled_ota = false)
    (htext : reconText gl ota = true)
    (hc : gl.credit_amount = .finite c)
    (hn : ota.net_payout = .finite n)
    (hd : gl.date = some d)
    (hr : otaRefDate ota = some r)
    (hpos : 0 < c) :
    ((|c - n| ≤ 2 ∧ |d - r| ≤ 3) → reconCandidateIncome ota gl = true) ∧
    (|c - n| = 201 / 100 → reconCandidateIncome ota gl = false) ∧
    (|d - r| = 4 → reconCandidate ota gl = false) := by
  refine ⟨?_, ?_, ?_⟩
  · rintro ⟨ha, hw⟩
    rw [abs_le] at hw
    have hdow : reconDateOk gl.date (otaRefDate ota) = true := by
      rw [hd, hr]
      simp only [reconDateOk, decide_eq_true_eq]
      omega
    have haok : reconAmountOk gl.credit_amount ota.net_payout = true := by
      rw [hc, hn]
      simp only [reconAmountOk, JsNum.sub, JsNum.neg, JsNum.add, JsNum.abs, JsNum.lt,
        Bool.not_eq_true']
      simp only [decide_eq_false_iff_not, not_lt]
      rw [← sub_eq_add_neg]
      exact ha
    have hcred : JsNum.lt (.finite 0) gl.credit_amount = true := by
      rw [hc]
      simp only [JsNum.lt, decide_eq_true_eq]
      exact hpos
    simp [reconCandidateIncome, reconCandidate, hflag, hdow, haok, htext, hcred]
  · intro ha
    have haok : reconAmountOk gl.credit_amount ota.net_payout = false := by
      rw [hc, hn]
      simp only [reconAmountOk, JsNum.sub, JsNum.neg, JsNum.add, JsNum.abs, JsNum.lt,
        Bool.not_eq_false']
      simp only [decide_eq_true_eq]
      rw [← sub_eq_add_neg, ha]
      norm_num
    simp [reconCandidateIncome, reconCandidate, haok]
  · intro hw
    have hdow : reconDateOk gl.date (otaRefDate ota) = false := by
      rw [hd, hr]
      simp only [reconDateOk, decide_eq_false_iff_not]
      rcases (abs_eq (by norm_num : (0:Int) ≤ 4)).mp hw with h | h <;> omega
    simp [reconCandidate, hdow]

/-- C6 (witness): the boundary theorem applied at concrete rows — credit
502 vs net 500 at 3 days matches; credit 502.01 does not; 4 days does
not. -/
theorem c6_witness :
    reconCandidateIncome exOtaCanon exGlRecon = true ∧
    reconCandidateIncome exOtaCanon
      { exGlRecon with credit_amount := .finite (50201/100) } = false ∧
    reconCandidate exOtaCanon { exGlRecon with date := some 19744 } = false := by
  refine ⟨?_, ?_, ?_⟩
  · exact (c6_confirmed exOtaCanon exGlRecon 502 500 19743 19740 rfl (by decide) rfl rfl rfl rfl
      (by norm_num)).1 ⟨by norm_num, by norm_num⟩
  · exact (c6_confirmed exOtaCanon _ (50201/100) 500 19743 19740 rfl (by decide) rfl rfl rfl rfl
      (by norm_num)).2.1 (by norm_num)
  · exact (c6_confirmed exOtaCanon _ 502 500 19744 19740 rfl (by decide) rfl rfl rfl rfl
      (by norm_num)).2.2 (by norm_num)

/-- Files with one booking whose check-in and payout date cells are both
empty (no resolvable date). -/
def exFilesNoDate : FilesState :=
  { otaRaw := [[("Ref", .str "R9"), ("CheckIn", .str ""), ("Net", .num (.finite 100)),
     ("PayoutDate", .str ""), ("Guest", .str "G"), ("Gross", .num (.finite 100)),
     ("Fees", .str "")]], glRaw := [], classificationMap := [] }

/-- Every element of a filtered list satisfies any consequence of the
filter predicate (generic version). -/
theorem all_filter_self {α : Type} (l : List α) (p q : α → Bool)
    (h : ∀ a, p a = true → q a = true) : (l.filter p).all q = true := by
  simp only [List.all_eq_true]
  intro a ha
  exact h a (List.mem_filter.mp ha).2

/-- C7 (confirmed): every booking and every GL row of the returned result
passes the period filter, which requires the reference date (check-in
falling back to payout for bookings) and both period bounds to be parseable
and the date to lie in `[periodStart, periodEnd]` inclusive; concretely, a
booking dated one day before the period start or one day after the end is
excluded, both boundary days are included, and a booking with no resolvable
date is dropped. -/
theorem c7_confirmed (files : FilesState) (config : ConfigState) (mappings : MappingState)
    (gen : Nat → String) :
    ((processData files config mappings gen).otaBookings.all
      (fun r => inPeriod (otaPeriodDate r) (parseIsoDate config.periodStart)
        (parseIsoDate config.periodEnd)) = true ∧
     ((processData files config mappings gen).glIncome ++
      (processData files config mappings gen).glExpenses ++
      (processData files config mappings gen).reviewRows ++
      (processData files config mappings gen).autoReimbursables).all
      (fun r => inPeriod r.date (parseIsoDate config.periodStart)
        (parseIsoDate config.periodEnd)) = true ∧
     (∀ (dd a b : Option Int), inPeriod dd a b = true →
        ∃ x u v, dd = some x ∧ a = some u ∧ b = some v ∧ u ≤ x ∧ x ≤ v)) ∧
    ((processData (mkOtaFiles 45291) exConfig exMappings exGen).otaBookings = [] ∧
     (processData (mkOtaFiles 45292) exConfig exMappings exGen).otaBookings.length = 1 ∧
     (processData (mkOtaFiles 45657) exConfig exMappings exGen).otaBookings.length = 1 ∧
     (processData (mkOtaFiles 45658) exConfig exMappings exGen).otaBookings = [] ∧
     (processData exFilesNoDate exConfig exMappings exGen).otaBookings = []) := by
  constructor
  · refine ⟨?_, ?_, ?_⟩
    · exact all_filter_self _ _ _ (fun a h => h)
    · have key := mem_processData_gl
        (fun r => inPeriod r.date (parseIsoDate config.periodStart)
          (parseIsoDate config.periodEnd) = true) files config mappings gen
        (fun r hr => (mem_allGlRowsOf hr).1)
        (fun ota r hq => by
          show inPeriod (markRow ota r).date _ _ = true
          rw [(markRow_fields ota r).2.2.2.1]
          exact hq)
        (fun r hq => by
          show inPeriod (classifyRow r).date _ _ = true
          rw [(classifyRow_fields r).2.2.2.1]
          exact hq)
      simp only [List.all_eq_true, List.mem_append]
      intro r hr
      apply key
      tauto
    · intro dd a b h
      cases dd with
      | none => simp [inPeriod] at h
      | some x =>
        cases a with
        | none => simp [inPeriod] at h
        | some u =>
          cases b with
          | none => simp [inPeriod] at h
          | some v =>
            simp only [inPeriod, decide_eq_true_eq] at h
            exact ⟨x, u, v, rfl, rfl, rfl, h.1, h.2⟩
  · refine ⟨?_, ?_, ?_, ?_, ?_⟩ <;> decide

/-- C7 (witness): the period characterization applied to the concrete
end-to-end run dates: day 19737 lies within [19723, 20088]. -/
theorem c7_witness :
    ∃ x u v, (some (19737 : Int)) = some x ∧ (some (19723 : Int)) = some u ∧
      (some (20088 : Int)) = some v ∧ u ≤ x ∧ x ≤ v :=
  (c7_confirmed exFilesE2E exConfig exMappings exGen).1.2.2
    (some 19737) (some 19723) (some 20088) (by decide)

/-- C8 (confirmed): single-column GL mode is active exactly when debit and
credit are mapped to the same nonempty raw header (`""` means unmapped); in
that mode a positive shared value becomes the credit with debit 0, and a
non-positive one becomes `|value|` as debit with credit 0; concretely,
values [100, -50] produce exactly the two rows credit=100/debit=0 and
debit=50/credit=0. -/
theorem c8_confirmed :
    (∀ m : MappingGl, isSingleColGl m = true ↔
      (m.debit_amount = m.credit_amount ∧ m.debit_amount ≠ "")) ∧
    (∀ v c : JsNum, JsNum.lt (.finite 0) v = true →
      foldSigns true v c = (.finite 0, v)) ∧
    (∀ v c : JsNum, JsNum.lt (.finite 0) v = false →
      foldSigns true v c = (JsNum.abs v, .finite 0)) ∧
    ((processData exFilesSingle exConfig exMappingsSingle exGen).glIncome.map
      (fun r => (r.debit_amount, r.credit_amount)) = [(.finite 0, .finite 100)] ∧
     (processData exFilesSingle exConfig exMappingsSingle exGen).glExpenses.map
      (fun r => (r.debit_amount, r.credit_amount)) = [(.finite 50, .finite 0)] ∧
     (processData exFilesSingle exConfig exMappingsSingle exGen).glIncome.length = 1 ∧
     (processData exFilesSingle exConfig exMappingsSingle exGen).glExpenses.length = 1) := by
  refine ⟨?_, ?_, ?_, ?_⟩
  · intro m
    simp [isSingleColGl]
  · intro v c h
    unfold foldSigns
    rw [if_pos rfl, if_pos h]
  · intro v c h
    unfold foldSigns
    rw [if_pos rfl, if_neg (by simp [h])]
  · refine ⟨?_, ?_, ?_, ?_⟩ <;> decide

/-- C8 (witness): the mode detection and both single-column branches at
concrete values 100 and -50. -/
theorem c8_witness :
    isSingleColGl exMapGlSingle = true ∧
    foldSigns true (.finite 100) (.finite 100) = (.finite 0, .finite 100) ∧
    foldSigns true (.finite (-50)) (.finite (-50)) = (.finite 50, .finite 0) :=
  ⟨(c8_confirmed.1 exMapGlSingle).mpr ⟨rfl, by decide⟩,
   c8_confirmed.2.1 _ _ (by decide),
   by have h := c8_confirmed.2.2.1 (.finite (-50)) (.finite (-50)) (by decide)
      simpa [JsNum.abs] using h⟩

/-- Blank out the generated id of a booking. -/
def eraseOtaId (r : CanonicalOtaRow) : CanonicalOtaRow := { r with id := "" }

/-- Blank out the generated id of a ledger row. -/
def eraseGlId (r : CanonicalGlRow) : CanonicalGlRow := { r with id := "" }

/-- Blank out every generated id in a processing result, leaving all other
fields untouched. -/
def eraseIds (p : ProcessedDataState) : ProcessedDataState :=
  { p with
    otaBookings := p.otaBookings.map eraseOtaId
    glIncome := p.glIncome.map eraseGlId
    glExpenses := p.glExpenses.map eraseGlId
    reviewRows := p.reviewRows.map eraseGlId
    autoReimbursables := p.autoReimbursables.map eraseGlId }

/-- Normalizing with any id then erasing equals normalizing with the empty
id: the id influences no other field. -/
theorem eraseOta_normalize (m : MappingOta) (id : String) (row : RawRow) :
    eraseOtaId (normalizeOtaRow m id row) = normalizeOtaRow m "" row := rfl

/-- GL analogue of `eraseOta_normalize`. -/
theorem eraseGl_normalize (cmap : List (String × ExpenseCategory)) (sc : Bool)
    (m : MappingGl) (id : String) (row : RawRow) :
    eraseGlId (normalizeGlRow cmap sc m id row) = normalizeGlRow cmap sc m "" row := rfl

/-- The id-erased booking list does not depend on the identifier stream. -/
theorem otaBookingsOf_erase (files : FilesState) (config : ConfigState)
    (mappings : MappingState) (g : Nat → String) :
    (otaBookingsOf files config mappings g).map eraseOtaId =
    otaBookingsOf files config mappings (fun _ => "") := by
  unfold otaBookingsOf
  rw [List.filter_map, List.filter_map, List.map_map]
  have hfun : ∀ ir : Nat × RawRow,
      (eraseOtaId ∘ fun ir => normalizeOtaRow mappings.ota (g ir.1) ir.2) ir =
      (fun ir : Nat × RawRow => normalizeOtaRow mappings.ota ((fun _ => "") ir.1) ir.2) ir :=
    fun ir => eraseOta_normalize _ _ _
  have hpred : ∀ ir ∈ files.otaRaw.enum,
      ((fun r => inPeriod (otaPeriodDate r) (parseIsoDate config.periodStart)
        (parseIsoDate config.periodEnd)) ∘ fun ir => normalizeOtaRow mappings.ota (g ir.1) ir.2) ir =
      ((fun r => inPeriod (otaPeriodDate r) (parseIsoDate config.periodStart)
        (parseIsoDate config.periodEnd)) ∘
          fun ir : Nat × RawRow => normalizeOtaRow mappings.ota ((fun _ => "") ir.1) ir.2) ir :=
    fun ir _ => rfl
  rw [List.filter_congr hpred]
  exact List.map_congr_left (fun a _ => hfun a)

/-- The id-erased normalized ledger does not depend on the identifier
stream. -/
theorem allGlRowsOf_erase (files : FilesState) (config : ConfigState)
    (mappings : MappingState) (g : Nat → String) :
    (allGlRowsOf files config mappings g).map eraseGlId =
    allGlRowsOf files config mappings (fun _ => "") := by
  unfold allGlRowsOf
  rw [List.filter_map, List.filter_map, List.map_map]
  have hpred : ∀ ir ∈ files.glRaw.enum,
      ((fun r => inPeriod r.date (parseIsoDate config.periodStart)
        (parseIsoDate config.periodEnd)) ∘ fun ir =>
          normalizeGlRow files.classificationMap (isSingleColGl mappings.gl) mappings.gl
            (g (files.otaRaw.length + ir.1)) ir.2) ir =
      ((fun r => inPeriod r.date (parseIsoDate config.periodStart)
        (parseIsoDate config.periodEnd)) ∘ fun ir : Nat × RawRow =>
          normalizeGlRow files.classificationMap (isSingleColGl mappings.gl) mappings.gl
            ((fun _ => "") (files.otaRaw.length + ir.1)) ir.2) ir :=
    fun ir _ => rfl
  rw [List.filter_congr hpred]
  exact List.map_congr_left (fun a _ => eraseGl_normalize _ _ _ _ _)
/-- The reconciliation candidate predicate never reads the generated
ids. -/
theorem reconCandidateIncome_erase (ota : CanonicalOtaRow) (gl : CanonicalGlRow) :
    reconCandidateIncome (eraseOtaId ota) (eraseGlId gl) = reconCandidateIncome ota gl := rfl

/-- Marking commutes with id erasure (the note is built from the
reservation id, not the generated id). -/
theorem markRow_erase (ota : CanonicalOtaRow) (gl : CanonicalGlRow) :
    eraseGlId (markRow ota gl) = markRow (eraseOtaId ota) (eraseGlId gl) := rfl

/-- `markFirst` commutes with any map that commutes with the predicate and
the update. -/
theorem markFirst_map_comm {α : Type} (e : α → α) (p p2 : α → Bool) (f f2 : α → α)
    (hp : ∀ a, p2 (e a) = p a) (hf : ∀ a, e (f a) = f2 (e a)) :
    ∀ l : List α, markFirst p2 f2 (l.map e) = (markFirst p f l).map e := by
  intro l
  induction l with
  | nil => rfl
  | cons r rs ih =>
    simp only [List.map_cons]
    unfold markFirst
    by_cases h : p r = true
    · rw [if_pos h, if_pos ((hp r).trans h), List.map_cons, hf r]
    · rw [if_neg h, if_neg (by rw [hp r]; exact h), List.map_cons, ih]

/-- One reconciliation step commutes with id erasure and preserves the
match count. -/
theorem reconcileStep_erase (ota : CanonicalOtaRow) (st : List CanonicalGlRow × Nat) :
    reconcileStep (eraseOtaId ota) (st.1.map eraseGlId, st.2) =
    ((reconcileStep ota st).1.map eraseGlId, (reconcileStep ota st).2) := by
  obtain ⟨gls, n⟩ := st
  have hcomp : reconCandidateIncome (eraseOtaId ota) ∘ eraseGlId = reconCandidateIncome ota := by
    funext a
    exact reconCandidateIncome_erase ota a
  have hfind : ((gls.map eraseGlId).find? (reconCandidateIncome (eraseOtaId ota))).isSome =
      (gls.find? (reconCandidateIncome ota)).isSome := by
    rw [List.find?_map, hcomp]
    cases gls.find? (reconCandidateIncome ota) <;> rfl
  unfold reconcileStep
  dsimp only
  by_cases h : (gls.find? (reconCandidateIncome ota)).isSome = true
  · rw [if_pos h, if_pos (hfind.trans h)]
    dsimp only
    rw [markFirst_map_comm eraseGlId (reconCandidateIncome ota)
      (reconCandidateIncome (eraseOtaId ota)) (markRow ota) (markRow (eraseOtaId ota))
      (fun a => reconCandidateIncome_erase ota a) (fun a => markRow_erase ota a) gls]
  · rw [if_neg h, if_neg (fun hh => h (hfind.symm.trans hh))]

/-- The reconciliation pass commutes with id erasure and preserves the
match count. -/
theorem reconcileAll_erase (gls : List CanonicalGlRow) (otas : List CanonicalOtaRow) :
    reconcileAll (gls.map eraseGlId) (otas.map eraseOtaId) =
    ((reconcileAll gls otas).1.map eraseGlId, (reconcileAll gls otas).2) := by
  unfold reconcileAll
  rw [List.foldl_map]
  suffices H : ∀ (os : List CanonicalOtaRow) (st : List CanonicalGlRow × Nat),
      os.foldl (fun s o => reconcileStep (eraseOtaId o) s) (st.1.map eraseGlId, st.2) =
      ((os.foldl (fun s o => reconcileStep o s) st).1.map eraseGlId,
       (os.foldl (fun s o => reconcileStep o s) st).2) by
    exact H otas (gls, 0)
  intro os
  induction os with
  | nil => intro st; rfl
  | cons o os2 ih =>
    intro st
    simp only [List.foldl_cons]
    rw [reconcileStep_erase o st, ih (reconcileStep o st)]

/-- Classification commutes with id erasure. -/
theorem classify_erase_comm (r : CanonicalGlRow) :
    eraseGlId (classifyRow r) = classifyRow (eraseGlId r) := by
  unfold classifyRow
  by_cases h : JsNum.lt (.finite 0) r.debit_amount = true
  · rw [if_pos h, if_pos (show JsNum.lt (.finite 0) (eraseGlId r).debit_amount = true from h)]
    rcases hd : r.default_category with - | cat
    · rw [show (eraseGlId r).default_category = none from hd]
      rfl
    · rw [show (eraseGlId r).default_category = some cat from hd]
      cases cat <;> rfl
  · rw [if_neg h, if_neg (show ¬JsNum.lt (.finite 0) (eraseGlId r).debit_amount = true from h)]
/-- Sums over bookings agree when the id-erased lists agree and the summand
ignores the id. -/
theorem foldl_add_eq (l1 l2 : List CanonicalOtaRow)
    (h : l1.map eraseOtaId = l2.map eraseOtaId) (f : CanonicalOtaRow → JsNum)
    (hf : ∀ r, f (eraseOtaId r) = f r) :
    l1.foldl (fun s r => JsNum.add s (f r)) (.finite 0) =
    l2.foldl (fun s r => JsNum.add s (f r)) (.finite 0) := by
  have hfn : (fun (s : JsNum) (r : CanonicalOtaRow) => JsNum.add s (f (eraseOtaId r))) =
      (fun s r => JsNum.add s (f r)) := by
    funext s r
    rw [hf r]
  have key : ∀ l : List CanonicalOtaRow,
      l.foldl (fun s r => JsNum.add s (f r)) (.finite 0) =
      ((l.map eraseOtaId).map f).foldl (fun s x => JsNum.add s x) (.finite 0) := by
    intro l
    rw [List.foldl_map, List.foldl_map, hfn]
  rw [key l1, key l2, h]

/-- Filtered, id-erased ledger lists agree when the id-erased inputs agree
and the predicate ignores the id. -/
theorem filter_map_erase (p : CanonicalGlRow → Bool) (hp : ∀ a, p (eraseGlId a) = p a)
    (l1 l2 : List CanonicalGlRow) (h : l1.map eraseGlId = l2.map eraseGlId) :
    (l1.filter p).map eraseGlId = (l2.filter p).map eraseGlId := by
  have key : ∀ l : List CanonicalGlRow,
      (l.filter p).map eraseGlId = (l.map eraseGlId).filter p := by
    intro l
    rw [List.filter_map]
    have hc : p ∘ eraseGlId = p := by
      funext a
      exact hp a
    rw [hc]
  rw [key l1, key l2, h]

/-- C4 (amended): `processData` is deterministic up to the freshly
generated record ids — for any two identifier streams (two runs of the
random `uuidv4` generator) on identical inputs, the results agree on every
field of every booking and ledger record except the generated `id`, and on
all statistics. -/
theorem c4_amended (files : FilesState) (config : ConfigState) (mappings : MappingState)
    (g1 g2 : Nat → String) :
    eraseIds (processData files config mappings g1) =
    eraseIds (processData files config mappings g2) := by
  have hota : (otaBookingsOf files config mappings g1).map eraseOtaId =
      (otaBookingsOf files config mappings g2).map eraseOtaId := by
    rw [otaBookingsOf_erase, otaBookingsOf_erase]
  have hgl : (allGlRowsOf files config mappings g1).map eraseGlId =
      (allGlRowsOf files config mappings g2).map eraseGlId := by
    rw [allGlRowsOf_erase, allGlRowsOf_erase]
  have e1 := reconcileAll_erase (allGlRowsOf files config mappings g1)
    (otaBookingsOf files config mappings g1)
  have e2 := reconcileAll_erase (allGlRowsOf files config mappings g2)
    (otaBookingsOf files config mappings g2)
  rw [hota, hgl] at e1
  have hrec := e1.symm.trans e2
  rw [Prod.mk.injEq] at hrec
  obtain ⟨hrec1, hrec2⟩ := hrec
  have hmaster : ((reconcileAll (allGlRowsOf files config mappings g1)
      (otaBookingsOf files config mappings g1)).1.map classifyRow).map eraseGlId =
      ((reconcileAll (allGlRowsOf files config mappings g2)
        (otaBookingsOf files config mappings g2)).1.map classifyRow).map eraseGlId := by
    rw [List.map_map, List.map_map]
    have hc : eraseGlId ∘ classifyRow = classifyRow ∘ eraseGlId := by
      funext a
      exact classify_erase_comm a
    rw [hc, ← List.map_map, ← List.map_map, hrec1]
  have hlen : (otaBookingsOf files config mappings g1).length =
      (otaBookingsOf files config mappings g2).length := by
    have hl := congrArg List.length hota
    simpa using hl
  have hunf : ∀ g : Nat → String, eraseIds (processData files config mappings g) =
      ProcessedDataState.mk
        ((otaBookingsOf files config mappings g).map eraseOtaId)
        ((((reconcileAll (allGlRowsOf files config mappings g)
            (otaBookingsOf files config mappings g)).1.map classifyRow).filter
              (fun r => JsNum.lt (.finite 0) r.credit_amount)).map eraseGlId)
        ((((reconcileAll (allGlRowsOf files config mappings g)
            (otaBookingsOf files config mappings g)).1.map classifyRow).filter
              (fun r => JsNum.lt (.finite 0) r.debit_amount)).map eraseGlId)
        ((((reconcileAll (allGlRowsOf files config mappings g)
            (otaBookingsOf files config mappings g)).1.map classifyRow).filter
              isReviewRow).map eraseGlId)
        ((((reconcileAll (allGlRowsOf files config mappings g)
            (otaBookingsOf files config mappings g)).1.map classifyRow).filter
              isAutoReimb).map eraseGlId)
        (ProcessedStats.mk
          ((otaBookingsOf files config mappings g).foldl
            (fun s r => JsNum.add s r.gross_amount) (.finite 0))
          ((otaBookingsOf files config mappings g).foldl
            (fun s r => JsNum.add s r.net_payout) (.finite 0))
          ((reconcileAll (allGlRowsOf files config mappings g)
            (otaBookingsOf files config mappings g)).2)
          ((otaBookingsOf files config mappings g).length -
            (reconcileAll (allGlRowsOf files config mappings g)
              (otaBookingsOf files config mappings g)).2)) :=
    fun g => rfl
  rw [hunf g1, hunf g2]
  simp only [ProcessedDataState.mk.injEq, ProcessedStats.mk.injEq]
  refine ⟨hota, ?_, ?_, ?_, ?_, ?_, ?_, hrec2, ?_⟩
  · exact filter_map_erase (fun r => JsNum.lt (.finite 0) r.credit_amount)
      (fun a => rfl) _ _ hmaster
  · exact filter_map_erase (fun r => JsNum.lt (.finite 0) r.debit_amount)
      (fun a => rfl) _ _ hmaster
  · exact filter_map_erase isReviewRow (fun a => rfl) _ _ hmaster
  · exact filter_map_erase isAutoReimb (fun a => rfl) _ _ hmaster
  · exact foldl_add_eq _ _ hota (fun r => r.gross_amount) (fun r => rfl)
  · exact foldl_add_eq _ _ hota (fun r => r.net_payout) (fun r => rfl)
  · rw [hlen, hrec2]

/-- C4 (counterexample): two runs on identical inputs with different
identifier streams (as produced by the random `uuidv4`) return unequal
`ProcessedDataState` values — the generated `id` fields differ — refuting
byte-for-byte determinism of the full structure. -/
theorem c4_counterexample :
    processData exFilesE2E exConfig exMappings exGen ≠
      processData exFilesE2E exConfig exMappings exGen2 ∧
    ((processData exFilesE2E exConfig exMappings exGen).otaBookings.map
      (fun r => r.id)) = ["0"] ∧
    ((processData exFilesE2E exConfig exMappings exGen2).otaBookings.map
      (fun r => r.id)) = ["u0"] := by
  refine ⟨?_, ?_, ?_⟩ <;> decide

end STRInvoicer
